import Mathlib

/-!
Verification development for the zombie population system
(`src/entities/EnemyManager.js`, `src/entities/Zombie.js`).

The JavaScript code is shallowly embedded: every numeric value the code
holds in a JS `number` is modelled as a rational (`ℚ`), random draws
(`Math.random()` results and the values derived from them) are explicit
parameters, and the trigonometric pair `(cos θ, sin θ)` of a random angle
is passed as two rationals constrained by `c ^ 2 + s ^ 2 = 1`.  Stateful
methods become functions from the state structure to the state structure.
Timer callbacks (`setInterval` / `setTimeout` bodies) become functions
applied to the state at the instant the callback fires.
-/

/-- 3D vector, mirroring the `three` `Vector3` fields used by the code. -/
structure Vec3 where
  x : ℚ
  y : ℚ
  z : ℚ
  deriving DecidableEq, Repr

/-- Squared distance in the horizontal (x/z) plane.  The code computes the
Euclidean `position.distanceTo(...)`; comparing squared distances against
squared non-negative thresholds is the exact rational counterpart. -/
def horizDistSq (p q : Vec3) : ℚ :=
  (p.x - q.x) ^ 2 + (p.z - q.z) ^ 2

/-- JS `a || d` applied to an optional numeric field: an absent field or the
falsy number `0` both yield the default `d` (`EnemyManager.configure`,
`configureSpawnAreas`, and the `Zombie` constructor all use this idiom). -/
def jsOr (o : Option ℚ) (d : ℚ) : ℚ :=
  match o with
  | none => d
  | some x => if x = 0 then d else x

namespace EM

/-- A spawn area as built by `EnemyManager.configureSpawnAreas`: the record
carries `radius` (meaningful when `kind = "circle"`) and `sizeX`/`sizeZ`
(meaningful when `kind = "rectangle"`), mirroring the duck-typed JS object.
The source field is named `type`; Lean reserves that word, hence `kind`. -/
structure SpawnArea where
  id : String
  kind : String
  weight : ℚ
  minDistance : ℚ
  maxDistance : ℚ
  center : Vec3
  radius : ℚ
  sizeX : ℚ
  sizeZ : ℚ
  deriving DecidableEq, Repr

/-- The accumulation loop of `selectWeightedSpawnArea`: walk the areas,
adding each weight to `weightSum`, and return the first area with
`randomValue <= weightSum`; `none` when the walk falls through. -/
def selectGo (r : ℚ) (acc : ℚ) : List SpawnArea → Option SpawnArea
  | [] => none
  | a :: rest =>
      if r ≤ acc + a.weight then some a else selectGo r (acc + a.weight) rest

/-- `EnemyManager.selectWeightedSpawnArea` with the random value
`randomValue = Math.random() * totalSpawnWeight` abstracted as the input
`r`.  After the loop the code executes `return this.spawnAreas[0]`: the
fallback is the FIRST configured area. -/
def selectWeightedSpawnArea (areas : List SpawnArea) (r : ℚ) : Option SpawnArea :=
  match selectGo r 0 areas with
  | some a => some a
  | none => areas.head?

/-- Cumulative weight of the first `i + 1` areas, the quantity the loop's
`weightSum` holds when area `i` is tested. -/
def cumw (areas : List SpawnArea) (i : ℕ) : ℚ :=
  ((areas.take (i + 1)).map SpawnArea.weight).sum

/-- Index of the first area whose cumulative weight reaches `r`, written
independently of the loop, from the spec's description of the walk. -/
def specFirstIdx (areas : List SpawnArea) (r : ℚ) : Option ℕ :=
  (List.range areas.length).find? (fun i => decide (r ≤ cumw areas i))

/-- The spec-side description of weighted selection, amended so that the
fallback for an unmatched draw is the first area (as the code returns). -/
def specSelect (areas : List SpawnArea) (r : ℚ) : Option SpawnArea :=
  match specFirstIdx areas r with
  | some i => areas[i]?
  | none => areas.head?

/-- `EnemyManager.getDefaultSpawnPosition`, with the two `Math.random()`
draws abstracted: `(c2, s2)` is the cosine/sine pair of the random angle
and `w ∈ [0, 1]` the draw scaled into the `30 + w * 50` distance band. -/
def getDefaultSpawnPosition (playerPos : Vec3) (c2 s2 w : ℚ) : Vec3 :=
  ⟨playerPos.x + c2 * (30 + w * 50), playerPos.y, playerPos.z + s2 * (30 + w * 50)⟩

/-- `EnemyManager.getPositionInArea`.  For a circle, `(c, s)` is the
cosine/sine of the uniform random angle and `v ∈ [0, 1]` the uniform draw
for `distanceFromCenter = Math.random() * area.radius`.  For a rectangle,
`rx, rz ∈ [0, 1]` are the two independent draws in
`(Math.random() * 2 - 1) * size / 2`.  An unknown kind falls through to the
default spawn position around the player. -/
def getPositionInArea (area : SpawnArea) (c s v rx rz : ℚ)
    (playerPos : Vec3) (c2 s2 w : ℚ) : Vec3 :=
  if area.kind = "circle" then
    let distanceFromCenter := v * area.radius
    ⟨area.center.x + c * distanceFromCenter,
     area.center.y,
     area.center.z + s * distanceFromCenter⟩
  else if area.kind = "rectangle" then
    ⟨area.center.x + (rx * 2 - 1) * area.sizeX / 2,
     area.center.y,
     area.center.z + (rz * 2 - 1) * area.sizeZ / 2⟩
  else
    getDefaultSpawnPosition playerPos c2 s2 w

/-- Raw archetype data as supplied to `EnemyManager.configure` in
`config.enemyTypes`: every numeric field may be absent. -/
structure EnemyTypeData where
  id : String
  weight : Option ℚ
  health : Option ℚ
  speed : Option ℚ
  damage : Option ℚ
  detectionRange : Option ℚ
  deriving DecidableEq, Repr

/-- A registered archetype, as stored in `this.enemyTypes`. -/
structure EnemyType where
  id : String
  weight : ℚ
  health : ℚ
  speed : ℚ
  damage : ℚ
  detectionRange : ℚ
  deriving DecidableEq, Repr

/-- The per-entry body of the registration loop in `EnemyManager.configure`:
each numeric field goes through the JS `||` default. -/
def mkEnemyType (t : EnemyTypeData) : EnemyType :=
  ⟨t.id, jsOr t.weight 1, jsOr t.health 100, jsOr t.speed 3,
   jsOr t.damage 20, jsOr t.detectionRange 15⟩

/-- The default archetype registered by `registerDefaultEnemyTypes`. -/
def standardType : EnemyType := ⟨"standard", 1, 100, 3, 20, 15⟩

/-- Archetype registration in `EnemyManager.configure`: a non-empty
`config.enemyTypes` clears the defaults and registers every entry (the JS
`Map` keyed by distinct ids is modelled as the insertion-ordered list);
an absent or empty list leaves the default set in place. -/
def configureEnemyTypes (ts : List EnemyTypeData) : List EnemyType :=
  if ts = [] then [standardType] else ts.map mkEnemyType

/-- The accumulation loop of `getRandomEnemyType` over the registered
archetypes in insertion order. -/
def drawGo (r : ℚ) (acc : ℚ) : List EnemyType → Option EnemyType
  | [] => none
  | t :: rest =>
      if r ≤ acc + t.weight then some t else drawGo r (acc + t.weight) rest

/-- `EnemyManager.getRandomEnemyType` with
`randomValue = Math.random() * totalWeight` abstracted as `r`; the
fallback is `this.enemyTypes.values().next().value`, the first archetype. -/
def getRandomEnemyType (types : List EnemyType) (r : ℚ) : Option EnemyType :=
  match drawGo r 0 types with
  | some t => some t
  | none => types.head?

end EM

namespace Zb

/-- The behavior states of `Zombie` (`'idle' | 'chase' | 'attack' | 'death'`
strings in the source). -/
inductive ZMode where
  | idle
  | chase
  | attack
  | death
  deriving DecidableEq, Repr

/-- The behavioral fields of a `Zombie`.  `hasLastKnown` models
`lastKnownPlayerPosition !== null`.  Rendering, animation, rotation and the
physics body are omitted: the behavior claims depend only on these fields
and on the distance to the player, which the step functions take as the
input `d` (the value the code computes as
`this.position.distanceTo(player.position)` within one tick). -/
structure Zombie where
  state : ZMode
  isAlive : Bool
  enabled : Bool
  canSeePlayer : Bool
  hasLastKnown : Bool
  updatePerceptionTime : ℚ
  perceptionUpdateRate : ℚ
  timeInCurrentState : ℚ
  timeSinceSpawn : ℚ
  health : ℚ
  maxHealth : ℚ
  detectionRange : ℚ
  attackRange : ℚ
  attackCooldown : ℚ
  attackDamage : ℚ
  lastAttackTime : ℚ
  skipAnimationWhenFar : Bool
  farDistance : ℚ
  skipPhysicsWhenVeryFar : Bool
  veryFarDistance : ℚ
  deriving DecidableEq, Repr

/-- The constructor property bag (`properties` argument of the `Zombie`
constructor), fed from an archetype's stats by `EnemyManager`. -/
structure ZProps where
  health : Option ℚ
  speed : Option ℚ
  damage : Option ℚ
  detectionRange : Option ℚ
  deriving DecidableEq, Repr

/-- The `Zombie` constructor: initial behavioral field values, with each
`properties.x || default` rendered by `jsOr`. -/
def Zombie.new (props : ZProps) : Zombie :=
  { state := ZMode.idle
    isAlive := true
    enabled := true
    canSeePlayer := false
    hasLastKnown := false
    updatePerceptionTime := 0
    perceptionUpdateRate := 1/5
    timeInCurrentState := 0
    timeSinceSpawn := 0
    health := jsOr props.health 100
    maxHealth := jsOr props.health 100
    detectionRange := jsOr props.detectionRange 15
    attackRange := 9/5
    attackCooldown := 6/5
    attackDamage := jsOr props.damage 20
    lastAttackTime := 0
    skipAnimationWhenFar := false
    farDistance := 50
    skipPhysicsWhenVeryFar := false
    veryFarDistance := 80 }

/-- `Zombie.optimizeForLargeNumbers`, called from `init`. -/
def Zombie.optimizeForLargeNumbers (z : Zombie) : Zombie :=
  { z with skipAnimationWhenFar := true, farDistance := 50,
           skipPhysicsWhenVeryFar := true, veryFarDistance := 80 }

/-- `Zombie.changeState`: identical target state is a no-op; otherwise the
state and `timeInCurrentState` are set, and entering `death` additionally
clears `isAlive` (animation and velocity effects omitted). -/
def Zombie.changeState (z : Zombie) (newState : ZMode) : Zombie :=
  if newState = z.state then z
  else
    let z1 := { z with state := newState, timeInCurrentState := 0 }
    match newState with
    | ZMode.death => { z1 with isAlive := false }
    | _ => z1

/-- `Zombie.takeDamage`: subtract, then enter `death` when health crossed
zero while still alive. -/
def Zombie.takeDamage (z : Zombie) (amount : ℚ) : Zombie :=
  let z1 := { z with health := z.health - amount }
  if z1.health ≤ 0 ∧ z1.isAlive then z1.changeState ZMode.death else z1

/-- `Zombie.updatePerception` with the player present: decrement the
countdown; on expiry reset it to `perceptionUpdateRate`, recompute
`canSeePlayer` from `d ≤ detectionRange`, and on a rising edge while idle
run `onPlayerSpotted` (= `changeState('chase')`). -/
def Zombie.updatePerception (z : Zombie) (dt d : ℚ) : Zombie :=
  let t := z.updatePerceptionTime - dt
  if t ≤ 0 then
    let prev := z.canSeePlayer
    let z1 := { z with updatePerceptionTime := z.perceptionUpdateRate,
                       canSeePlayer := false }
    if d ≤ z1.detectionRange then
      let z2 := { z1 with canSeePlayer := true }
      if ¬ prev ∧ z2.state = ZMode.idle then z2.changeState ZMode.chase else z2
    else z1
  else { z with updatePerceptionTime := t }

/-- `Zombie.processChaseState` (movement, rotation and animation omitted):
record the last known player position while visible; within attack range
transition to `attack` and return; otherwise fall through to the
lost-track check that reverts to `idle` after 8 seconds unseen. -/
def Zombie.processChaseState (z : Zombie) (d : ℚ) : Zombie :=
  let z1 := if z.canSeePlayer then { z with hasLastKnown := true } else z
  if z1.hasLastKnown ∧ d ≤ z1.attackRange then z1.changeState ZMode.attack
  else if ¬ z1.canSeePlayer ∧ z1.timeInCurrentState > 8 then z1.changeState ZMode.idle
  else z1

/-- `Zombie.processAttackState` (look-at and animation omitted): beyond
`1.2 ×` attack range return to `chase`; otherwise, when the cooldown has
elapsed, trigger an attack — schedule the two `setTimeout` callbacks
(modelled below as `attackDamageCallback` and `attackReturnCallback`) and
record `lastAttackTime`. -/
def Zombie.processAttackState (z : Zombie) (d : ℚ) : Zombie :=
  if d > z.attackRange * (6/5) then z.changeState ZMode.chase
  else if z.timeSinceSpawn - z.lastAttackTime > z.attackCooldown then
    { z with lastAttackTime := z.timeSinceSpawn }
  else z

/-- The 500 ms `setTimeout` body scheduled by `processAttackState`, applied
to the zombie's state and the distance to the player at the instant the
callback fires: the damage (always the literal `20`) is dealt only when
the state is still `attack` and the player is still within attack range;
otherwise no damage is dealt. -/
def Zombie.attackDamageCallback (z : Zombie) (d : ℚ) : Option ℚ :=
  if z.state = ZMode.attack ∧ d ≤ z.attackRange then some 20 else none

/-- The 1200 ms `setTimeout` body scheduled by `processAttackState`:
return to `chase` only if still in `attack`. -/
def Zombie.attackReturnCallback (z : Zombie) : Zombie :=
  if z.state = ZMode.attack then z.changeState ZMode.chase else z

/-- `Zombie.processStateMachine`: the idle-and-sees-player transition to
`chase`, then dispatch on the (possibly updated) state.  `idle` and
`death` change no behavioral field (idle only jitters the yaw). -/
def Zombie.processStateMachine (z : Zombie) (d : ℚ) : Zombie :=
  let z1 := if z.state = ZMode.idle ∧ z.canSeePlayer then z.changeState ZMode.chase else z
  match z1.state with
  | ZMode.idle => z1
  | ZMode.chase => z1.processChaseState d
  | ZMode.attack => z1.processAttackState d
  | ZMode.death => z1

/-- JS `a % b` for the non-negative operands the code uses
(`this.timeSinceSpawn % 3`): on `a ≥ 0`, `b > 0` the JS truncated
remainder coincides with `a - b * ⌊a / b⌋`. -/
def jsMod (a b : ℚ) : ℚ := a - b * (⌊a / b⌋ : ℚ)

/-- `Zombie.update` restricted to the behavioral fields: early return when
disabled or dead; advance the timers; far zombies (`d > farDistance` with
`skipAnimationWhenFar`) run perception and the state machine only when
`timeSinceSpawn % 3 < 0.1`, near zombies every tick.  The physics position
pull and visual transform refresh touch no behavioral field. -/
def Zombie.update (z : Zombie) (dt d : ℚ) : Zombie :=
  if ¬ (z.enabled ∧ z.isAlive) then z
  else
    let z1 := { z with timeSinceSpawn := z.timeSinceSpawn + dt,
                       timeInCurrentState := z.timeInCurrentState + dt }
    if z1.skipAnimationWhenFar ∧ d > z1.farDistance then
      if jsMod z1.timeSinceSpawn 3 < 1/10 then
        (z1.updatePerception dt d).processStateMachine d
      else z1
    else
      (z1.updatePerception dt d).processStateMachine d

end Zb

namespace EM

/-- The slice of a `Zombie` that the manager's roster bookkeeping reads:
an identity, the liveness flag checked by `update`, and the `enabled` flag
set on activation. -/
structure Agent where
  id : ℕ
  isAlive : Bool
  enabled : Bool
  deriving DecidableEq, Repr

/-- `zombie.enabled = true`, executed on activation. -/
def enable (a : Agent) : Agent := { a with enabled := true }

/-- The manager state: rosters, flags, the configuration fields the
modelled methods read, plus the external `entityManager` contents
(`registry`) and the `setInterval` handle of `scheduleRemainingZombies`
(`timerActive` / `timerIndex` are the interval's liveness and its closure
variable `index`). -/
structure MState where
  enabled : Bool
  preloadComplete : Bool
  enemies : List Agent
  preloadedZombies : List Agent
  registry : List Agent
  maxEnemies : ℕ
  initialActiveCount : ℕ
  activationRate : ℕ
  timerActive : Bool
  timerIndex : ℕ
  deriving DecidableEq, Repr

/-- `EnemyManager.update(deltaTime)`: early return when disabled or when
preload is not complete; otherwise `this.enemies` is filtered to the
agents still alive.  Nothing else is touched — in particular the external
registry. -/
def managerUpdate (s : MState) (deltaTime : ℚ) : MState :=
  if s.enabled = false then s
  else if s.preloadComplete = false then s
  else { s with enemies := s.enemies.filter (fun e => e.isAlive) }

/-- `EnemyManager.activatePreloadedZombies`: enable and register the first
`min(initialActiveCount, preloaded.length)` preloaded agents, then start
the staged-activation interval at that index
(`scheduleRemainingZombies(initialCount)`). -/
def activatePreloadedZombies (s : MState) : MState :=
  let initialCount := min s.initialActiveCount s.preloadedZombies.length
  let batch := (s.preloadedZombies.take initialCount).map enable
  { s with enemies := s.enemies ++ batch,
           registry := s.registry ++ batch,
           timerActive := true,
           timerIndex := initialCount }

/-- One firing of the `setInterval` callback in `scheduleRemainingZombies`:
when the index has reached the preloaded roster's length the interval
cancels itself; otherwise up to `activationRate` further preloaded agents
are enabled, registered and appended to the active roster. -/
def fireTimer (s : MState) : MState :=
  if s.timerActive = false then s
  else if s.preloadedZombies.length ≤ s.timerIndex then { s with timerActive := false }
  else
    let k := min s.activationRate (s.preloadedZombies.length - s.timerIndex)
    let batch := ((s.preloadedZombies.drop s.timerIndex).take k).map enable
    { s with enemies := s.enemies ++ batch,
             registry := s.registry ++ batch,
             timerIndex := s.timerIndex + k }

/-- `EnemyManager.clear()`: deregister every active agent from the
external registry, empty both rosters, reset the preload flag.  The
method contains no `clearInterval`, so the staged-activation interval
state is left untouched. -/
def clear (s : MState) : MState :=
  { s with registry := s.registry.filter (fun e => ¬ s.enemies.any (fun z => z.id = e.id)),
           enemies := [],
           preloadedZombies := [],
           preloadComplete := false }

/-- A later `preloadZombies` run after `clear`: the freshly constructed
agents `zs` are pushed onto `this.preloadedZombies` and the preload flag
is set (zombie construction itself is abstracted into `zs`). -/
def preloadRepopulate (s : MState) (zs : List Agent) : MState :=
  { s with preloadedZombies := s.preloadedZombies ++ zs, preloadComplete := true }

end EM

lemma cumw_cons_zero (a : EM.SpawnArea) (l : List EM.SpawnArea) :
    EM.cumw (a :: l) 0 = a.weight := by
  simp [EM.cumw]

lemma cumw_cons_succ (a : EM.SpawnArea) (l : List EM.SpawnArea) (i : ℕ) :
    EM.cumw (a :: l) (i + 1) = a.weight + EM.cumw l i := by
  simp [EM.cumw]

lemma selectGo_eq (r : ℚ) :
    ∀ (l : List EM.SpawnArea) (acc : ℚ),
      EM.selectGo r acc l =
        ((List.range l.length).find? (fun i => decide (r ≤ acc + EM.cumw l i))).bind
          (fun i => l[i]?) := by
  intro l
  induction l with
  | nil => intro acc; simp [EM.selectGo]
  | cons a l ih =>
    intro acc
    by_cases h : r ≤ acc + a.weight
    · simp [EM.selectGo, h, List.length_cons, List.range_succ_eq_map,
            List.find?_cons, cumw_cons_zero]
    · have hstep : EM.selectGo r acc (a :: l) = EM.selectGo r (acc + a.weight) l := by
        simp [EM.selectGo, h]
      rw [hstep, ih (acc + a.weight)]
      have hp0 : decide (r ≤ acc + EM.cumw (a :: l) 0) = false := by
        simp [cumw_cons_zero, h]
      simp only [List.length_cons, List.range_succ_eq_map, List.find?_cons, hp0]
      rw [List.find?_map]
      have hpred : ((fun i => decide (r ≤ acc + EM.cumw (a :: l) i)) ∘ Nat.succ)
          = (fun i => decide (r ≤ acc + a.weight + EM.cumw l i)) := by
        funext i
        simp [Function.comp, cumw_cons_succ, add_assoc]
      rw [hpred]
      rcases hf : (List.range l.length).find? (fun i => decide (r ≤ acc + a.weight + EM.cumw l i)) with _ | i
      · simp
      · simp

/-- C1 (amended).  Weighted region selection returns the first region (in
configuration order) whose cumulative weight is ≥ the random value `r`
— `specSelect` states this via indexed cumulative sums — and when no
region matches, the guaranteed fallback is the FIRST region of the list
(`return this.spawnAreas[0]`), not the last one the claim names. -/
theorem selectWeightedSpawnArea_first_cumulative (areas : List EM.SpawnArea) (r : ℚ) :
    EM.selectWeightedSpawnArea areas r = EM.specSelect areas r := by
  have h := selectGo_eq r areas 0
  simp only [zero_add] at h
  unfold EM.selectWeightedSpawnArea EM.specSelect EM.specFirstIdx
  rw [h]
  rcases hf : (List.range areas.length).find? (fun i => decide (r ≤ EM.cumw areas i)) with _ | i
  · simp
  · have hi : i < areas.length := List.mem_range.mp (List.mem_of_find?_eq_some hf)
    simp [List.getElem?_eq_getElem hi]

/-- First spawn area of the counterexample configuration. -/
def areaA : EM.SpawnArea := ⟨"a", "circle", 1, 30, 80, ⟨0, 0, 0⟩, 30, 0, 0⟩

/-- Second (and last) spawn area of the counterexample configuration. -/
def areaB : EM.SpawnArea := ⟨"b", "circle", 1, 30, 80, ⟨5, 0, 5⟩, 30, 0, 0⟩

/-- C1 counterexample.  With two regions of weight 1 and an unmatched draw
`r = 3` (exceeding the total weight 2, the floating-point-drift case the
claim describes), the code returns the FIRST region `areaA`, not the last
region `areaB` the claim promises. -/
theorem selectWeightedSpawnArea_fallback_is_first :
    EM.selectWeightedSpawnArea [areaA, areaB] 3 = some areaA ∧
    [areaA, areaB].getLast? = some areaB ∧ areaA ≠ areaB := by
  refine ⟨?_, ?_, ?_⟩
  · norm_num [EM.selectWeightedSpawnArea, EM.selectGo, areaA, areaB]
  · simp [areaA, areaB]
  · simp [areaA, areaB]

/-- A dead agent sitting in the active roster and the registry. -/
def deadAg : EM.Agent := ⟨7, false, true⟩

/-- A live active agent. -/
def liveAg : EM.Agent := ⟨8, true, true⟩

/-- Enabled manager, preload complete, with one dead and one live agent in
both the active roster and the external registry. -/
def sDead : EM.MState := ⟨true, true, [deadAg, liveAg], [], [deadAg, liveAg], 2, 1, 1, false, 0⟩

/-- A disabled manager state. -/
def sOff : EM.MState := ⟨false, true, [deadAg], [], [deadAg], 1, 1, 1, false, 0⟩

/-- C2 (amended).  With the manager enabled and preload complete, a tick
prunes every dead agent from the active roster, but the external entity
registry is NOT touched (`update` contains no `removeEntity` call); when
disabled or before preload completes, the tick changes nothing. -/
theorem managerUpdate_prunes_roster_only (s : EM.MState) (dt : ℚ) :
    (s.enabled = true → s.preloadComplete = true →
      (EM.managerUpdate s dt).enemies = s.enemies.filter (fun e => e.isAlive) ∧
      (EM.managerUpdate s dt).registry = s.registry ∧
      (EM.managerUpdate s dt).preloadedZombies = s.preloadedZombies) ∧
    ((s.enabled = false ∨ s.preloadComplete = false) → EM.managerUpdate s dt = s) := by
  constructor
  · intro he hp
    simp [EM.managerUpdate, he, hp]
  · rintro (h | h) <;> simp [EM.managerUpdate, h]

/-- Witness for C2's amended theorem at concrete states. -/
theorem managerUpdate_prunes_roster_only_witness :
    ((EM.managerUpdate sDead 1).enemies = sDead.enemies.filter (fun e => e.isAlive) ∧
     (EM.managerUpdate sDead 1).registry = sDead.registry ∧
     (EM.managerUpdate sDead 1).preloadedZombies = sDead.preloadedZombies) ∧
    EM.managerUpdate sOff 1 = sOff :=
  ⟨(managerUpdate_prunes_roster_only sDead 1).1 rfl rfl,
   (managerUpdate_prunes_roster_only sOff 1).2 (Or.inl rfl)⟩

/-- C2 counterexample.  The tick prunes the dead agent `deadAg` from the
active roster but leaves it in the external entity registry, refuting the
claim that pruning removes it from the registry as well. -/
theorem managerUpdate_leaves_registry :
    (EM.managerUpdate sDead 1).enemies = [liveAg] ∧
    (EM.managerUpdate sDead 1).registry = [deadAg, liveAg] := by
  constructor <;> simp [EM.managerUpdate, sDead, deadAg, liveAg]

/-- A preloaded (not yet enabled) agent with identity `n`. -/
def pz (n : ℕ) : EM.Agent := ⟨n, true, false⟩

/-- Manager state in mid staged activation: four preloaded agents, the
first two already activated, the `setInterval` of
`scheduleRemainingZombies` outstanding at index 2. -/
def sTimer : EM.MState :=
  ⟨true, true, [EM.enable (pz 0), EM.enable (pz 1)], [pz 0, pz 1, pz 2, pz 3],
   [EM.enable (pz 0), EM.enable (pz 1)], 4, 2, 2, true, 2⟩

/-- C4 failing run.  `clear()` contains no `clearInterval`, so after
`clear` the staged-activation interval is still outstanding
(`timerActive = true`), and once a fresh `preloadZombies` run repopulates
the roster, the leaked interval's next firing enables an agent of the NEW
population and appends it to the active roster — the race the claim says
`clear()` prevents. -/
theorem clear_leaks_activation_timer :
    (EM.clear sTimer).timerActive = true ∧
    (EM.fireTimer (EM.preloadRepopulate (EM.clear sTimer) [pz 10, pz 11, pz 12])).enemies =
      [EM.enable (pz 12)] := by
  constructor
  · rfl
  · simp [EM.clear, EM.preloadRepopulate, EM.fireTimer, EM.enable, sTimer, pz]

/-- C3 (amended).  An archetype supplied with weight 0 is NOT rejected at
configure time: every entry of a non-empty archetype list is registered,
and the JS `weight || 1.0` default coerces a weight of 0 to 1, so the
archetype stays fully selectable. -/
theorem configure_coerces_zero_weight (ts : List EM.EnemyTypeData)
    (t : EM.EnemyTypeData) (hmem : t ∈ ts) :
    EM.mkEnemyType t ∈ EM.configureEnemyTypes ts ∧
    (EM.mkEnemyType t).id = t.id ∧
    (EM.mkEnemyType t).weight = jsOr t.weight 1 ∧
    (t.weight = some 0 → (EM.mkEnemyType t).weight = 1) := by
  have hne : ts ≠ [] := List.ne_nil_of_mem hmem
  refine ⟨?_, rfl, rfl, ?_⟩
  · simp only [EM.configureEnemyTypes, if_neg hne]
    exact List.mem_map_of_mem EM.mkEnemyType hmem
  · intro h
    simp [EM.mkEnemyType, jsOr, h]

/-- The zero-weight archetype of the counterexample configuration. -/
def zeroTypeData : EM.EnemyTypeData := ⟨"crawler", some 0, some 50, none, some 5, none⟩

/-- Witness for C3's amended theorem at the concrete zero-weight entry. -/
theorem configure_coerces_zero_weight_witness :
    EM.mkEnemyType zeroTypeData ∈ EM.configureEnemyTypes [zeroTypeData] ∧
    (EM.mkEnemyType zeroTypeData).id = zeroTypeData.id ∧
    (EM.mkEnemyType zeroTypeData).weight = jsOr zeroTypeData.weight 1 ∧
    (zeroTypeData.weight = some 0 → (EM.mkEnemyType zeroTypeData).weight = 1) :=
  configure_coerces_zero_weight [zeroTypeData] zeroTypeData (by simp)

/-- C3 counterexample.  Configuring with a single archetype of weight 0
registers it (with its weight silently replaced by the default 1), and the
weighted draw then returns that archetype — refuting both the rejection
at configure time and the never-selectable guarantee. -/
theorem zero_weight_archetype_selectable :
    EM.configureEnemyTypes [zeroTypeData] = [⟨"crawler", 1, 50, 3, 5, 15⟩] ∧
    EM.getRandomEnemyType (EM.configureEnemyTypes [zeroTypeData]) (1/2) =
      some ⟨"crawler", 1, 50, 3, 5, 15⟩ := by
  constructor <;>
    norm_num [EM.configureEnemyTypes, EM.mkEnemyType, jsOr,
              EM.getRandomEnemyType, EM.drawGo, zeroTypeData]

/-- A live attacking zombie used as a concrete witness input. -/
def zAlive : Zb.Zombie :=
  ⟨Zb.ZMode.attack, true, true, true, true, 1/5, 1/5, 0, 0, 30, 100, 15, 9/5, 6/5, 20, 0,
   true, 50, true, 80⟩

/-- A dead zombie used as a concrete witness input. -/
def zDeadZ : Zb.Zombie :=
  ⟨Zb.ZMode.death, false, true, false, true, 1/5, 1/5, 0, 5, -10, 100, 15, 9/5, 6/5, 20, 0,
   true, 50, true, 80⟩

/-- C6.  Driving a live agent's health to 0 or below leaves it in `death`
with `isAlive = false` on return; once dead, further `takeDamage` calls
keep decrementing health (no clamping) but change neither `state` nor
`isAlive`. -/
theorem takeDamage_death_semantics :
    (∀ (z : Zb.Zombie) (amount : ℚ), z.isAlive = true → z.state ≠ Zb.ZMode.death →
      z.health ≤ amount →
      (z.takeDamage amount).state = Zb.ZMode.death ∧ (z.takeDamage amount).isAlive = false) ∧
    (∀ (z : Zb.Zombie) (amount : ℚ), z.isAlive = false →
      (z.takeDamage amount).health = z.health - amount ∧
      (z.takeDamage amount).state = z.state ∧ (z.takeDamage amount).isAlive = false) := by
  constructor
  · intro z amount ha hs hle
    have hcond : z.health - amount ≤ 0 := by linarith
    have h2 : ¬ (Zb.ZMode.death = z.state) := fun h => hs h.symm
    simp [Zb.Zombie.takeDamage, Zb.Zombie.changeState, hcond, ha, h2]
  · intro z amount ha
    simp [Zb.Zombie.takeDamage, ha]

/-- Witness for C6 at concrete zombies: a live one killed by a 50-damage
hit, a dead one hit again for 5. -/
theorem takeDamage_death_semantics_witness :
    ((zAlive.takeDamage 50).state = Zb.ZMode.death ∧
     (zAlive.takeDamage 50).isAlive = false) ∧
    ((zDeadZ.takeDamage 5).health = zDeadZ.health - 5 ∧
     (zDeadZ.takeDamage 5).state = zDeadZ.state ∧
     (zDeadZ.takeDamage 5).isAlive = false) :=
  ⟨takeDamage_death_semantics.1 zAlive 50 rfl (by decide) (by norm_num [zAlive]),
   takeDamage_death_semantics.2 zDeadZ 5 rfl⟩

/-- C5.  The 500 ms delayed-damage callback re-checks state and range at
apply time: (1) an agent that takes lethal damage after the trigger but
before the callback fires is observed in `death`, so the player takes no
damage from that trigger; (2) whenever the agent is no longer in `attack`
or the player is out of attack range at apply time, no damage is dealt. -/
theorem delayed_attack_damage_guard :
    (∀ (z : Zb.Zombie) (amount d : ℚ), z.state = Zb.ZMode.attack → z.isAlive = true →
      z.health ≤ amount → (z.takeDamage amount).attackDamageCallback d = none) ∧
    (∀ (z : Zb.Zombie) (d : ℚ), z.state ≠ Zb.ZMode.attack ∨ z.attackRange < d →
      z.attackDamageCallback d = none) := by
  constructor
  · intro z amount d hstate ha hle
    have hcond : z.health - amount ≤ 0 := by linarith
    have h2 : ¬ (Zb.ZMode.death = z.state) := by rw [hstate]; decide
    simp [Zb.Zombie.takeDamage, Zb.Zombie.changeState, Zb.Zombie.attackDamageCallback,
          hcond, ha, h2]
  · intro z d h
    rcases h with h | h
    · simp [Zb.Zombie.attackDamageCallback, h]
    · simp [Zb.Zombie.attackDamageCallback, not_le.mpr h]

/-- Witness for C5: a live attacker killed by a 50-damage hit deals no
damage at the 500 ms instant, and a dead agent's callback deals none. -/
theorem delayed_attack_damage_guard_witness :
    (zAlive.takeDamage 50).attackDamageCallback 1 = none ∧
    zDeadZ.attackDamageCallback 0 = none :=
  ⟨delayed_attack_damage_guard.1 zAlive 50 1 rfl rfl (by norm_num [zAlive]),
   delayed_attack_damage_guard.2 zDeadZ 0 (Or.inl (by decide))⟩

/-- The witness attacker with an archetype damage stat different from 20. -/
def zBigDmg : Zb.Zombie := { zAlive with attackDamage := 55 }

/-- C10.  Whenever the delayed callback deals damage it passes the literal
`20` to `player.takeDamage`, for every agent — the `attackDamage` field
(derived in the constructor from the archetype's damage stat) is never
consulted at apply time, so changing it changes nothing. -/
theorem attack_damage_constant_twenty :
    (∀ (z : Zb.Zombie) (d : ℚ), z.state = Zb.ZMode.attack → d ≤ z.attackRange →
      z.attackDamageCallback d = some 20) ∧
    (∀ (z : Zb.Zombie) (a d : ℚ),
      Zb.Zombie.attackDamageCallback { z with attackDamage := a } d =
        z.attackDamageCallback d) ∧
    (∀ props : Zb.ZProps, (Zb.Zombie.new props).attackDamage = jsOr props.damage 20) := by
  refine ⟨?_, ?_, ?_⟩
  · intro z d hs hd
    simp [Zb.Zombie.attackDamageCallback, hs, hd]
  · intro z a d
    simp [Zb.Zombie.attackDamageCallback]
  · intro props
    rfl

/-- Witness for C10: an agent whose archetype damage is 55 still deals
exactly 20 at apply time. -/
theorem attack_damage_constant_twenty_witness :
    zBigDmg.attackDamageCallback 1 = some 20 ∧
    Zb.Zombie.attackDamageCallback { zAlive with attackDamage := 55 } 1 =
      zAlive.attackDamageCallback 1 ∧
    (Zb.Zombie.new ⟨some 60, none, some 55, none⟩).attackDamage =
      jsOr (some 55) 20 :=
  ⟨attack_damage_constant_twenty.1 zBigDmg 1 rfl (by norm_num [zBigDmg, zAlive]),
   attack_damage_constant_twenty.2.1 zAlive 55 1,
   attack_damage_constant_twenty.2.2 ⟨some 60, none, some 55, none⟩⟩

/-- C9.  Sampling a circle region: the point is returned at the center's
elevation, its horizontal distance from the center is exactly the uniform
draw scaled linearly by the radius (`v * radius`, i.e. uniform in radius,
not in area), and it therefore lies within `radius` of the center. -/
theorem circle_sampling_radius_law (A : EM.SpawnArea) (c s v rx rz : ℚ)
    (p2 : Vec3) (c2 s2 w : ℚ)
    (hkind : A.kind = "circle") (hunit : c ^ 2 + s ^ 2 = 1)
    (hv0 : 0 ≤ v) (hv1 : v ≤ 1) (hR : 0 ≤ A.radius) :
    (EM.getPositionInArea A c s v rx rz p2 c2 s2 w).y = A.center.y ∧
    horizDistSq (EM.getPositionInArea A c s v rx rz p2 c2 s2 w) A.center =
      (v * A.radius) ^ 2 ∧
    0 ≤ v * A.radius ∧ v * A.radius ≤ A.radius ∧
    horizDistSq (EM.getPositionInArea A c s v rx rz p2 c2 s2 w) A.center ≤
      A.radius ^ 2 := by
  have hle : v * A.radius ≤ A.radius := by
    calc v * A.radius ≤ 1 * A.radius := mul_le_mul_of_nonneg_right hv1 hR
    _ = A.radius := one_mul _
  have heq : horizDistSq (EM.getPositionInArea A c s v rx rz p2 c2 s2 w) A.center =
      (v * A.radius) ^ 2 := by
    simp only [EM.getPositionInArea, if_pos hkind, horizDistSq]
    linear_combination ((v * A.radius) ^ 2) * hunit
  refine ⟨?_, heq, mul_nonneg hv0 hR, hle, ?_⟩
  · simp only [EM.getPositionInArea, if_pos hkind]
  · rw [heq]
    exact pow_le_pow_left₀ (mul_nonneg hv0 hR) hle 2

/-- Witness for C9 on a concrete circle region of radius 30 with the
rational unit-circle point (3/5, 4/5) and radius draw 1/2. -/
theorem circle_sampling_radius_law_witness :
    (EM.getPositionInArea areaA (3/5) (4/5) (1/2) 0 0 ⟨0, 0, 0⟩ 0 0 0).y = areaA.center.y ∧
    horizDistSq (EM.getPositionInArea areaA (3/5) (4/5) (1/2) 0 0 ⟨0, 0, 0⟩ 0 0 0)
      areaA.center = ((1/2) * areaA.radius) ^ 2 ∧
    0 ≤ (1/2 : ℚ) * areaA.radius ∧ (1/2 : ℚ) * areaA.radius ≤ areaA.radius ∧
    horizDistSq (EM.getPositionInArea areaA (3/5) (4/5) (1/2) 0 0 ⟨0, 0, 0⟩ 0 0 0)
      areaA.center ≤ areaA.radius ^ 2 :=
  circle_sampling_radius_law areaA (3/5) (4/5) (1/2) 0 0 ⟨0, 0, 0⟩ 0 0 0
    rfl (by norm_num) (by norm_num) (by norm_num) (by norm_num [areaA])

lemma fireTimer_inactive (s : EM.MState) (h : s.timerActive = false) :
    EM.fireTimer s = s := by
  simp [EM.fireTimer, h]

lemma fireTimer_done (s : EM.MState) (h : s.timerActive = true)
    (h2 : s.preloadedZombies.length ≤ s.timerIndex) :
    EM.fireTimer s = { s with timerActive := false } := by
  simp [EM.fireTimer, h, h2]

lemma fireTimer_step (s : EM.MState) (h : s.timerActive = true)
    (h2 : s.timerIndex < s.preloadedZombies.length) :
    (EM.fireTimer s).enemies.length =
      s.enemies.length + min s.activationRate (s.preloadedZombies.length - s.timerIndex) ∧
    (EM.fireTimer s).timerIndex =
      s.timerIndex + min s.activationRate (s.preloadedZombies.length - s.timerIndex) ∧
    (EM.fireTimer s).timerActive = true ∧
    (EM.fireTimer s).preloadedZombies = s.preloadedZombies ∧
    (EM.fireTimer s).activationRate = s.activationRate := by
  have hnot : ¬ s.preloadedZombies.length ≤ s.timerIndex := by omega
  refine ⟨?_, ?_, ?_, ?_, ?_⟩ <;>
    simp [EM.fireTimer, h, hnot, List.length_take, List.length_drop] <;>
    omega

lemma fireTimer_iter_length (k : ℕ) :
    ∀ (s : EM.MState),
      1 ≤ s.activationRate →
      (s.timerActive = false → s.preloadedZombies.length ≤ s.timerIndex) →
      s.timerIndex ≤ s.preloadedZombies.length →
      s.enemies.length = s.timerIndex →
      (EM.fireTimer^[k] s).enemies.length =
        min (s.timerIndex + k * s.activationRate) s.preloadedZombies.length := by
  induction k with
  | zero =>
    intro s h1 h2 h3 h4
    simp only [Function.iterate_zero, id_eq, Nat.zero_mul, Nat.add_zero]
    omega
  | succ k ih =>
    intro s h1 h2 h3 h4
    rw [Function.iterate_succ_apply]
    have hmul : (k + 1) * s.activationRate = k * s.activationRate + s.activationRate :=
      Nat.succ_mul k s.activationRate
    by_cases hta : s.timerActive = true
    · by_cases hdone : s.preloadedZombies.length ≤ s.timerIndex
      · rw [fireTimer_done s hta hdone]
        have hres := ih { s with timerActive := false } h1 (fun _ => hdone) h3 h4
        dsimp only at hres ⊢
        rw [hres, hmul]
        generalize k * s.activationRate = m
        omega
      · have hlt : s.timerIndex < s.preloadedZombies.length := by omega
        obtain ⟨hs1, hs2, hs3, hs4, hs5⟩ := fireTimer_step s hta hlt
        have hres := ih (EM.fireTimer s)
          (by rw [hs5]; exact h1)
          (by rw [hs3]; intro hf; exact absurd hf (by simp))
          (by rw [hs2, hs4]; omega)
          (by rw [hs1, hs2, h4])
        rw [hres, hs2, hs4, hs5, hmul]
        generalize k * s.activationRate = m
        omega
    · have hta' : s.timerActive = false := by
        cases h : s.timerActive
        · rfl
        · exact absurd h hta
      have hle : s.preloadedZombies.length ≤ s.timerIndex := h2 hta'
      rw [fireTimer_inactive s hta']
      have hres := ih s h1 h2 h3 h4
      rw [hres, hmul]
      generalize k * s.activationRate = m
      omega

lemma activate_fields (s : EM.MState) :
    (EM.activatePreloadedZombies s).enemies.length =
      s.enemies.length + min s.initialActiveCount s.preloadedZombies.length ∧
    (EM.activatePreloadedZombies s).timerIndex =
      min s.initialActiveCount s.preloadedZombies.length ∧
    (EM.activatePreloadedZombies s).timerActive = true ∧
    (EM.activatePreloadedZombies s).preloadedZombies = s.preloadedZombies ∧
    (EM.activatePreloadedZombies s).activationRate = s.activationRate := by
  refine ⟨?_, rfl, rfl, rfl, rfl⟩
  simp [EM.activatePreloadedZombies]

/-- C8.  Preload of `maxPopulation = 10` agents, `initialActiveCount = 3`:
activation moves exactly `min(3, 10) = 3` agents to the active roster
immediately; the roster reaches 10 after `⌈7 / activationRate⌉`
(= `(6 + rate) / rate` in natural division) firings of the
staged-activation interval, and never exceeds 10 at any firing count. -/
theorem staged_activation_scenario (s : EM.MState) (rate : ℕ)
    (hrate : s.activationRate = rate) (h1 : 1 ≤ rate)
    (hmax : s.maxEnemies = 10)
    (hpre : s.preloadedZombies.length = s.maxEnemies)
    (hinit : s.initialActiveCount = 3)
    (hemp : s.enemies = []) :
    (EM.activatePreloadedZombies s).enemies.length = 3 ∧
    (EM.fireTimer^[(6 + rate) / rate] (EM.activatePreloadedZombies s)).enemies.length = 10 ∧
    (∀ k : ℕ, (EM.fireTimer^[k] (EM.activatePreloadedZombies s)).enemies.length ≤ 10) := by
  obtain ⟨ha1, ha2, ha3, ha4, ha5⟩ := activate_fields s
  have hL : s.preloadedZombies.length = 10 := by omega
  have hmin : min s.initialActiveCount s.preloadedZombies.length = 3 := by
    rw [hinit, hL]
    decide
  have hlen3 : (EM.activatePreloadedZombies s).enemies.length = 3 := by
    rw [ha1, hemp, hmin]
    rfl
  have hiter : ∀ k : ℕ,
      (EM.fireTimer^[k] (EM.activatePreloadedZombies s)).enemies.length =
        min (3 + k * rate) 10 := by
    intro k
    have hres := fireTimer_iter_length k (EM.activatePreloadedZombies s)
      (by rw [ha5, hrate]; exact h1)
      (by rw [ha3]; intro hf; exact absurd hf (by simp))
      (by rw [ha2, ha4, hmin, hL]; omega)
      (by rw [hlen3, ha2, hmin])
    rw [hres, ha2, ha4, ha5, hmin, hL, hrate]
  refine ⟨hlen3, ?_, ?_⟩
  · rw [hiter ((6 + rate) / rate)]
    have hdm := Nat.div_add_mod (6 + rate) rate
    have hmod : (6 + rate) % rate < rate := Nat.mod_lt _ (by omega)
    have hflip : ((6 + rate) / rate) * rate = rate * ((6 + rate) / rate) :=
      Nat.mul_comm _ _
    rw [hflip]
    generalize hq : rate * ((6 + rate) / rate) = Q at hdm
    omega
  · intro k
    rw [hiter k]
    omega

/-- The concrete preloaded manager of C8's witness run: ten preloaded
agents, `initialActiveCount = 3`, `activationRate = 2`. -/
def sPre : EM.MState :=
  ⟨true, true, [],
   [pz 0, pz 1, pz 2, pz 3, pz 4, pz 5, pz 6, pz 7, pz 8, pz 9],
   [], 10, 3, 2, false, 0⟩

/-- Witness for C8 at the concrete ten-agent manager with rate 2
(`(6 + 2) / 2 = 4` interval firings). -/
theorem staged_activation_scenario_witness :
    (EM.activatePreloadedZombies sPre).enemies.length = 3 ∧
    (EM.fireTimer^[(6 + 2) / 2] (EM.activatePreloadedZombies sPre)).enemies.length = 10 ∧
    (∀ k : ℕ, (EM.fireTimer^[k] (EM.activatePreloadedZombies sPre)).enemies.length ≤ 10) :=
  staged_activation_scenario sPre 2 rfl (by omega) rfl rfl rfl rfl


lemma changeState_state (z : Zb.Zombie) (ns : Zb.ZMode) :
    (z.changeState ns).state = ns := by
  by_cases h : ns = z.state
  · simp [Zb.Zombie.changeState, h]
  · cases ns <;> simp [Zb.Zombie.changeState, h]

lemma changeState_canSee (z : Zb.Zombie) (ns : Zb.ZMode) :
    (z.changeState ns).canSeePlayer = z.canSeePlayer := by
  by_cases h : ns = z.state
  · simp [Zb.Zombie.changeState, h]
  · cases ns <;> simp [Zb.Zombie.changeState, h]

lemma changeState_perception (z : Zb.Zombie) (ns : Zb.ZMode) :
    (z.changeState ns).updatePerceptionTime = z.updatePerceptionTime ∧
    (z.changeState ns).perceptionUpdateRate = z.perceptionUpdateRate := by
  by_cases h : ns = z.state
  · simp [Zb.Zombie.changeState, h]
  · cases ns <;> simp [Zb.Zombie.changeState, h]

lemma updatePerception_inv (z : Zb.Zombie) (dt d : ℚ)
    (hinv : z.state = Zb.ZMode.idle → z.canSeePlayer = false) :
    (z.updatePerception dt d).state = Zb.ZMode.idle →
    (z.updatePerception dt d).canSeePlayer = false := by
  intro hidle
  unfold Zb.Zombie.updatePerception at hidle ⊢
  by_cases ht : z.updatePerceptionTime - dt ≤ 0
  · simp only [if_pos ht] at hidle ⊢
    by_cases hd : d ≤ z.detectionRange
    · simp only [if_pos hd] at hidle ⊢
      by_cases hspot : ¬ z.canSeePlayer ∧ z.state = Zb.ZMode.idle
      · simp only [if_pos hspot] at hidle ⊢
        rw [changeState_state] at hidle
        exact absurd hidle (by decide)
      · simp only [if_neg hspot] at hidle ⊢
        push_neg at hspot
        have := hspot (fun hsee => absurd (hinv hidle) (by rw [hsee]; decide))
        exact absurd hidle this
    · simp only [if_neg hd] at hidle ⊢
  · simp only [if_neg ht] at hidle ⊢
    exact hinv hidle

lemma changeState_attackRange (z : Zb.Zombie) (ns : Zb.ZMode) :
    (z.changeState ns).attackRange = z.attackRange := by
  by_cases h : ns = z.state
  · simp [Zb.Zombie.changeState, h]
  · cases ns <;> simp [Zb.Zombie.changeState, h]

lemma processChaseState_inv (z : Zb.Zombie) (d : ℚ) (hst : z.state = Zb.ZMode.chase) :
    (z.processChaseState d).state = Zb.ZMode.idle →
    (z.processChaseState d).canSeePlayer = false := by
  intro hidle
  unfold Zb.Zombie.processChaseState at hidle ⊢
  dsimp only at hidle ⊢
  split_ifs at hidle ⊢ with h1 h2 h3 h4 h5
  · rw [changeState_state] at hidle
    exact absurd hidle (by decide)
  · exact absurd h1 h3.1
  · have h0 : z.state = Zb.ZMode.idle := hidle
    rw [hst] at h0
    exact absurd h0 (by decide)
  · rw [changeState_state] at hidle
    exact absurd hidle (by decide)
  · rw [changeState_canSee]
    simpa using h1
  · have h0 : z.state = Zb.ZMode.idle := hidle
    rw [hst] at h0
    exact absurd h0 (by decide)

lemma processAttackState_not_idle (z : Zb.Zombie) (d : ℚ) (hst : z.state = Zb.ZMode.attack) :
    (z.processAttackState d).state ≠ Zb.ZMode.idle := by
  intro hidle
  unfold Zb.Zombie.processAttackState at hidle
  split_ifs at hidle with h1 h2
  · rw [changeState_state] at hidle
    exact absurd hidle (by decide)
  · have h0 : z.state = Zb.ZMode.idle := hidle
    rw [hst] at h0
    exact absurd h0 (by decide)
  · have h0 : z.state = Zb.ZMode.idle := hidle
    rw [hst] at h0
    exact absurd h0 (by decide)

lemma processStateMachine_inv (z : Zb.Zombie) (d : ℚ)
    (hinv : z.state = Zb.ZMode.idle → z.canSeePlayer = false) :
    (z.processStateMachine d).state = Zb.ZMode.idle →
    (z.processStateMachine d).canSeePlayer = false := by
  intro hidle
  unfold Zb.Zombie.processStateMachine at hidle ⊢
  dsimp only at hidle ⊢
  by_cases htop : z.state = Zb.ZMode.idle ∧ z.canSeePlayer = true
  · exact absurd (hinv htop.1) (by rw [htop.2]; decide)
  · simp only [if_neg htop] at hidle ⊢
    cases hst : z.state with
    | idle =>
      simp only [hst] at hidle ⊢
      exact hinv hst
    | chase =>
      simp only [hst] at hidle ⊢
      exact processChaseState_inv z d hst hidle
    | attack =>
      simp only [hst] at hidle ⊢
      exact absurd hidle (processAttackState_not_idle z d hst)
    | death =>
      simp only [hst] at hidle ⊢
      exact absurd hidle (by decide)

lemma processChaseState_stays (w : Zb.Zombie) (d : ℚ)
    (hst : w.state = Zb.ZMode.chase) (hsee : w.canSeePlayer = true)
    (hatk : w.attackRange < d) :
    (w.processChaseState d).state = Zb.ZMode.chase := by
  unfold Zb.Zombie.processChaseState
  dsimp only
  split_ifs with h1 h2
  · exact absurd h1.2 (not_le.mpr hatk)
  · exact absurd hsee h2.1
  · exact hst

lemma processStateMachine_chase_stays (w : Zb.Zombie) (d : ℚ)
    (hst : w.state = Zb.ZMode.chase) (hsee : w.canSeePlayer = true)
    (hatk : w.attackRange < d) :
    (w.processStateMachine d).state = Zb.ZMode.chase := by
  unfold Zb.Zombie.processStateMachine
  dsimp only
  have htop : ¬ (w.state = Zb.ZMode.idle ∧ w.canSeePlayer = true) := by
    rintro ⟨h1, _⟩
    rw [hst] at h1
    exact absurd h1 (by decide)
  rw [if_neg htop]
  simp only [hst]
  exact processChaseState_stays w d hst hsee hatk

lemma processStateMachine_idle_sees (w : Zb.Zombie) (d : ℚ)
    (hst : w.state = Zb.ZMode.idle) (hsee : w.canSeePlayer = true)
    (hatk : w.attackRange < d) :
    (w.processStateMachine d).state = Zb.ZMode.chase := by
  unfold Zb.Zombie.processStateMachine
  dsimp only
  have htop : w.state = Zb.ZMode.idle ∧ w.canSeePlayer = true := ⟨hst, hsee⟩
  rw [if_pos htop, changeState_state]
  exact processChaseState_stays _ d (changeState_state w Zb.ZMode.chase)
    ((changeState_canSee w Zb.ZMode.chase).trans hsee)
    ((changeState_attackRange w Zb.ZMode.chase).symm ▸ hatk)

lemma processStateMachine_idle_stuck (w : Zb.Zombie) (d : ℚ)
    (hst : w.state = Zb.ZMode.idle) (hsee : w.canSeePlayer = false) :
    w.processStateMachine d = w := by
  unfold Zb.Zombie.processStateMachine
  dsimp only
  have htop : ¬ (w.state = Zb.ZMode.idle ∧ w.canSeePlayer = true) := by
    rintro ⟨_, h2⟩
    rw [hsee] at h2
    exact absurd h2 (by decide)
  rw [if_neg htop]
  simp only [hst]

lemma changeState_ptime (z : Zb.Zombie) (ns : Zb.ZMode) :
    (z.changeState ns).updatePerceptionTime = z.updatePerceptionTime :=
  (changeState_perception z ns).1

lemma processChaseState_ptime (w : Zb.Zombie) (d : ℚ) :
    (w.processChaseState d).updatePerceptionTime = w.updatePerceptionTime := by
  unfold Zb.Zombie.processChaseState
  dsimp only
  split_ifs <;> first | rfl | rw [changeState_ptime]

lemma processAttackState_ptime (w : Zb.Zombie) (d : ℚ) :
    (w.processAttackState d).updatePerceptionTime = w.updatePerceptionTime := by
  unfold Zb.Zombie.processAttackState
  split_ifs <;> first | rfl | rw [changeState_ptime]

lemma processStateMachine_ptime (w : Zb.Zombie) (d : ℚ) :
    (w.processStateMachine d).updatePerceptionTime = w.updatePerceptionTime := by
  unfold Zb.Zombie.processStateMachine
  dsimp only
  by_cases htop : w.state = Zb.ZMode.idle ∧ w.canSeePlayer = true
  · rw [if_pos htop, changeState_state]
    dsimp only
    rw [processChaseState_ptime, changeState_ptime]
  · rw [if_neg htop]
    cases hst : w.state <;> simp only [hst]
    all_goals first
      | rfl
      | exact processChaseState_ptime _ d
      | exact processAttackState_ptime _ d

lemma update_idle_detect (z : Zb.Zombie) (dt d : ℚ)
    (hen : z.enabled = true) (hal : z.isAlive = true)
    (hst : z.state = Zb.ZMode.idle) (hper : z.updatePerceptionTime ≤ dt)
    (hdet : d ≤ z.detectionRange) (hfar : d ≤ z.farDistance)
    (hatk : z.attackRange < d) :
    (z.update dt d).state = Zb.ZMode.chase := by
  unfold Zb.Zombie.update
  dsimp only
  have hact : ¬¬(z.enabled = true ∧ z.isAlive = true) := by simp [hen, hal]
  rw [if_neg hact]
  have hfarc : ¬(z.skipAnimationWhenFar = true ∧ d > z.farDistance) := by
    rintro ⟨_, hgt⟩
    exact absurd hfar (not_le.mpr hgt)
  rw [if_neg hfarc]
  unfold Zb.Zombie.updatePerception
  dsimp only
  have ht : z.updatePerceptionTime - dt ≤ 0 := by linarith
  rw [if_pos ht, if_pos hdet]
  by_cases hsee : z.canSeePlayer = true
  · have hcond : ¬ (¬ z.canSeePlayer = true ∧ z.state = Zb.ZMode.idle) :=
      fun h => h.1 hsee
    rw [if_neg hcond]
    exact processStateMachine_idle_sees _ d hst rfl hatk
  · rw [if_pos (⟨hsee, hst⟩ : ¬ z.canSeePlayer = true ∧ z.state = Zb.ZMode.idle)]
    exact processStateMachine_chase_stays _ d (changeState_state _ _)
      (by rw [changeState_canSee])
      (by rw [changeState_attackRange]; exact hatk)

lemma perception_machine_no_chase (w : Zb.Zombie) (dt d : ℚ)
    (hst : w.state = Zb.ZMode.idle) (hseef : w.canSeePlayer = false)
    (hdet : w.detectionRange < d) :
    ((w.updatePerception dt d).processStateMachine d).state ≠ Zb.ZMode.chase := by
  unfold Zb.Zombie.updatePerception
  dsimp only
  by_cases ht : w.updatePerceptionTime - dt ≤ 0
  · rw [if_pos ht, if_neg (not_le.mpr hdet)]
    have hr := processStateMachine_idle_stuck
      ({ w with updatePerceptionTime := w.perceptionUpdateRate, canSeePlayer := false } : Zb.Zombie)
      d hst rfl
    rw [hr]
    intro h
    have h0 : w.state = Zb.ZMode.chase := h
    rw [hst] at h0
    exact absurd h0 (by decide)
  · rw [if_neg ht]
    have hr := processStateMachine_idle_stuck
      ({ w with updatePerceptionTime := w.updatePerceptionTime - dt } : Zb.Zombie)
      d hst hseef
    rw [hr]
    intro h
    have h0 : w.state = Zb.ZMode.chase := h
    rw [hst] at h0
    exact absurd h0 (by decide)

lemma update_no_false_chase (z : Zb.Zombie) (dt d : ℚ)
    (hst : z.state = Zb.ZMode.idle) (hseef : z.canSeePlayer = false)
    (hdet : z.detectionRange < d) :
    (z.update dt d).state ≠ Zb.ZMode.chase := by
  unfold Zb.Zombie.update
  dsimp only
  by_cases hact : ¬(z.enabled = true ∧ z.isAlive = true)
  · rw [if_pos hact, hst]
    decide
  · rw [if_neg hact]
    by_cases hfarc : z.skipAnimationWhenFar = true ∧ d > z.farDistance
    · rw [if_pos hfarc]
      by_cases hmod : Zb.jsMod (z.timeSinceSpawn + dt) 3 < 1/10
      · rw [if_pos hmod]
        exact perception_machine_no_chase _ dt d hst hseef hdet
      · rw [if_neg hmod]
        intro h
        have h0 : z.state = Zb.ZMode.chase := h
        rw [hst] at h0
        exact absurd h0 (by decide)
    · rw [if_neg hfarc]
      exact perception_machine_no_chase _ dt d hst hseef hdet

lemma update_idle_inv (z : Zb.Zombie) (dt d : ℚ)
    (hinv : z.state = Zb.ZMode.idle → z.canSeePlayer = false) :
    (z.update dt d).state = Zb.ZMode.idle →
    (z.update dt d).canSeePlayer = false := by
  intro hidle
  unfold Zb.Zombie.update at hidle ⊢
  dsimp only at hidle ⊢
  by_cases hact : ¬(z.enabled = true ∧ z.isAlive = true)
  · rw [if_pos hact] at hidle ⊢
    exact hinv hidle
  · rw [if_neg hact] at hidle ⊢
    by_cases hfarc : z.skipAnimationWhenFar = true ∧ d > z.farDistance
    · rw [if_pos hfarc] at hidle ⊢
      by_cases hmod : Zb.jsMod (z.timeSinceSpawn + dt) 3 < 1/10
      · rw [if_pos hmod] at hidle ⊢
        exact processStateMachine_inv _ d (updatePerception_inv _ dt d hinv) hidle
      · rw [if_neg hmod] at hidle ⊢
        exact hinv hidle
    · rw [if_neg hfarc] at hidle ⊢
      exact processStateMachine_inv _ d (updatePerception_inv _ dt d hinv) hidle

lemma update_perception_reset (z : Zb.Zombie) (dt d : ℚ)
    (hen : z.enabled = true) (hal : z.isAlive = true)
    (hfar : d ≤ z.farDistance) (hper : z.updatePerceptionTime ≤ dt) :
    (z.update dt d).updatePerceptionTime = z.perceptionUpdateRate := by
  unfold Zb.Zombie.update
  dsimp only
  have hact : ¬¬(z.enabled = true ∧ z.isAlive = true) := by simp [hen, hal]
  rw [if_neg hact]
  have hfarc : ¬(z.skipAnimationWhenFar = true ∧ d > z.farDistance) := by
    rintro ⟨_, hgt⟩
    exact absurd hfar (not_le.mpr hgt)
  rw [if_neg hfarc, processStateMachine_ptime]
  unfold Zb.Zombie.updatePerception
  dsimp only
  have ht : z.updatePerceptionTime - dt ≤ 0 := by linarith
  rw [if_pos ht]
  by_cases hd : d ≤ z.detectionRange
  · rw [if_pos hd]
    by_cases hspot : ¬ z.canSeePlayer = true ∧ z.state = Zb.ZMode.idle
    · rw [if_pos hspot, changeState_ptime]
    · rw [if_neg hspot]
  · rw [if_neg hd]

/-- C7 (amended).  From `idle`, the transition to `chase` happens in the
very update step whose perception refresh fires (the countdown expires
within one perception cycle, and a fired refresh resets it to
`perceptionUpdateRate`, which the constructor sets to 0.2 s) whenever the
distance is within `detectionRange` (and outside attack range — a player
already inside attack range drives the agent through `chase` into
`attack` in the same tick); an idle agent that does not currently see the
player never enters `chase` while the distance exceeds `detectionRange`,
and idle-implies-not-seeing is preserved by every update step.  The
claim's stronger clause — that NO state ever transitions into `chase`
beyond `detectionRange` — is false: `attack` falls back to `chase` at any
distance above `1.2 ×` attack range (see the counterexample). -/
theorem idle_chase_detection_discipline :
    (∀ (z : Zb.Zombie) (dt d : ℚ), z.enabled = true → z.isAlive = true →
      z.state = Zb.ZMode.idle → z.updatePerceptionTime ≤ dt →
      d ≤ z.detectionRange → d ≤ z.farDistance → z.attackRange < d →
      (z.update dt d).state = Zb.ZMode.chase) ∧
    (∀ (z : Zb.Zombie) (dt d : ℚ), z.state = Zb.ZMode.idle → z.canSeePlayer = false →
      z.detectionRange < d → (z.update dt d).state ≠ Zb.ZMode.chase) ∧
    (∀ (z : Zb.Zombie) (dt d : ℚ), (z.state = Zb.ZMode.idle → z.canSeePlayer = false) →
      (z.update dt d).state = Zb.ZMode.idle → (z.update dt d).canSeePlayer = false) ∧
    (∀ (z : Zb.Zombie) (dt d : ℚ), z.enabled = true → z.isAlive = true →
      d ≤ z.farDistance → z.updatePerceptionTime ≤ dt →
      (z.update dt d).updatePerceptionTime = z.perceptionUpdateRate) ∧
    (∀ props : Zb.ZProps, (Zb.Zombie.new props).perceptionUpdateRate = 1/5) :=
  ⟨update_idle_detect, update_no_false_chase, update_idle_inv, update_perception_reset,
   fun _ => rfl⟩

/-- Concrete idle zombie for C7's witness. -/
def zIdle : Zb.Zombie :=
  ⟨Zb.ZMode.idle, true, true, false, false, 1/5, 1/5, 0, 0, 100, 100, 15, 9/5, 6/5, 20, 0,
   true, 50, true, 80⟩

/-- Witness for C7's amended theorem at a concrete idle zombie. -/
theorem idle_chase_detection_discipline_witness :
    (zIdle.update (1/5) 10).state = Zb.ZMode.chase ∧
    (zIdle.update (1/5) 20).state ≠ Zb.ZMode.chase ∧
    ((zIdle.update (1/5) 20).state = Zb.ZMode.idle →
      (zIdle.update (1/5) 20).canSeePlayer = false) ∧
    (zIdle.update (1/5) 10).updatePerceptionTime = zIdle.perceptionUpdateRate ∧
    (Zb.Zombie.new ⟨none, none, none, none⟩).perceptionUpdateRate = 1/5 :=
  ⟨idle_chase_detection_discipline.1 zIdle (1/5) 10 rfl rfl rfl
      (by norm_num [zIdle]) (by norm_num [zIdle]) (by norm_num [zIdle]) (by norm_num [zIdle]),
   idle_chase_detection_discipline.2.1 zIdle (1/5) 20 rfl rfl (by norm_num [zIdle]),
   idle_chase_detection_discipline.2.2.1 zIdle (1/5) 20 (fun _ => rfl),
   idle_chase_detection_discipline.2.2.2.1 zIdle (1/5) 10 rfl rfl
      (by norm_num [zIdle]) (by norm_num [zIdle]),
   idle_chase_detection_discipline.2.2.2.2 ⟨none, none, none, none⟩⟩

/-- Concrete attacking zombie whose player has retreated to distance 20
(beyond its detection range 15). -/
def zAtkC : Zb.Zombie :=
  ⟨Zb.ZMode.attack, true, true, false, true, 1/5, 1/5, 0, 0, 100, 100, 15, 9/5, 6/5, 20, 0,
   true, 50, true, 80⟩

/-- C7 counterexample.  An agent in `attack` whose player has moved to
distance 20 — beyond `detectionRange = 15` — transitions into `chase` on
the next update (`processAttackState`: `20 > 1.2 * 1.8`), refuting the
claim that the agent never transitions into `chase` (from any state)
while the distance exceeds `detectionRange`. -/
theorem chase_entered_beyond_detection :
    (zAtkC.update (1/100) 20).state = Zb.ZMode.chase ∧ zAtkC.detectionRange < 20 := by
  constructor
  · norm_num [Zb.Zombie.update, Zb.Zombie.updatePerception, Zb.Zombie.processStateMachine,
              Zb.Zombie.processAttackState, Zb.Zombie.changeState, zAtkC]
    rw [if_neg (by decide : ¬ (Zb.ZMode.chase = Zb.ZMode.attack))]
  · norm_num [zAtkC]
